import Mathlib

/-!
Verification of the chatbot flow editor / interpreter.

This file shallowly embeds the core of the repository:
  - src/utils/interpolation.ts  : interpolateText, evaluateCondition
  - src/components/PreviewPanel.vue : the flow interpreter
      (startChat, processBlock, handleSendMessage, syncVariablesToParent, endChat, ...)
  - src/components/Canvas.vue   : handleBlockDelete
  - src/App.vue                 : addVariable, deleteBlockFromMenu

JavaScript numbers are modelled as `Option ℚ`, `none` standing for NaN.
`jsNumber` models the `Number(string)` coercion on the plain decimal
grammar (optional sign, digits, optional fraction and exponent, surrounding
whitespace, empty string to 0); exotic forms (hex literals, "Infinity")
are mapped to NaN and are never used in any witness below.
-/

/-- Variable type, source `Variable.type : "string" | "number"`. -/
inductive VType where
  | tstring
  | tnumber
deriving DecidableEq, Repr

/-- A `string | number` JavaScript value (used for `Condition.value`). -/
inductive Prim where
  | pstr (s : String)
  | pnum (q : ℚ)
deriving DecidableEq, Repr

/-- A variable's stored value, source `Variable.value : string | number | null`. -/
inductive Value where
  | vstr (s : String)
  | vnum (q : ℚ)
  | vnull
deriving DecidableEq, Repr

/-- Source `Variable` record from src/types/chatbot.ts. -/
structure Variable where
  name : String
  vtype : VType
  value : Value
deriving DecidableEq, Repr

/-- `Record<string, Variable>`, modelled as an association list keyed by name. -/
abbrev Vars := List (String × Variable)

/-- Record member access `variables[name]`. -/
def lookupVar (vars : Vars) (name : String) : Option Variable :=
  match vars with
  | [] => none
  | (k, v) :: rest => if k = name then some v else lookupVar rest name

/-- In-place update `variables[name].value = x` (no effect if the key is absent). -/
def setVarValue (vars : Vars) (name : String) (x : Value) : Vars :=
  vars.map (fun kv => if kv.1 = name then (kv.1, { kv.2 with value := x }) else kv)

/-- The opening brace character (written by code, not as a literal). -/
def lbrace : Char := Char.ofNat 123

/-- The closing brace character. -/
def rbrace : Char := Char.ofNat 125

/-- A digit character, as in the regex used by `Number` parsing. -/
def isDigitChar (c : Char) : Bool := c.isDigit

/-- A `\w` regex character: `[A-Za-z0-9_]`. -/
def isWordChar (c : Char) : Bool := c.isAlphanum || c = '_'

/-- JavaScript `String.prototype.trim`: strip leading and trailing
whitespace (modelled over the character list so that it evaluates inside the
kernel; `Char.isWhitespace` stands for the JS WhiteSpace/LineTerminator
set). -/
def jsTrim (s : String) : String :=
  String.mk (((s.data.dropWhile Char.isWhitespace).reverse.dropWhile
    Char.isWhitespace).reverse)

/-- Value of a list of decimal digit characters. -/
def digitsToNat (ds : List Char) : Nat :=
  ds.foldl (fun n c => 10 * n + (c.toNat - 48)) 0

/-- Parse an optional exponent suffix (`e`/`E`, optional sign, digits) applied
to `base`; the whole remainder must be consumed. -/
def parseExpPart (base : ℚ) (cs : List Char) : Option ℚ :=
  match cs with
  | [] => some base
  | e :: rest =>
    if e = 'e' ∨ e = 'E' then
      let (sgn, rest2) : Bool × List Char :=
        match rest with
        | '+' :: r => (false, r)
        | '-' :: r => (true, r)
        | r => (false, r)
      let ds := rest2.takeWhile isDigitChar
      if ds = [] ∨ rest2.dropWhile isDigitChar ≠ [] then none
      else if sgn then some (base / 10 ^ digitsToNat ds)
      else some (base * 10 ^ digitsToNat ds)
    else none

/-- Parse an unsigned decimal number (`d+`, `d+.d*`, `.d+`, optional exponent),
the full input must be consumed; `none` is NaN. -/
def parseDecimal (cs : List Char) : Option ℚ :=
  let ip := cs.takeWhile isDigitChar
  let rest := cs.dropWhile isDigitChar
  match rest with
  | [] => if ip = [] then none else some (digitsToNat ip)
  | '.' :: rest2 =>
    let fp := rest2.takeWhile isDigitChar
    let rest3 := rest2.dropWhile isDigitChar
    if ip = [] ∧ fp = [] then none
    else parseExpPart ((digitsToNat ip : ℚ) + (digitsToNat fp : ℚ) / 10 ^ fp.length) rest3
  | _ =>
    if ip = [] then none else parseExpPart (digitsToNat ip) rest

/-- JavaScript `Number(s)` on a string: trim, empty means 0, optional sign,
decimal grammar; anything else is NaN (`none`). -/
def jsNumber (s : String) : Option ℚ :=
  let t := jsTrim s
  if t = "" then some 0
  else
    match t.data with
    | '+' :: cs => parseDecimal cs
    | '-' :: cs => (parseDecimal cs).map Neg.neg
    | cs => parseDecimal cs

/-- JavaScript `Number(v)` on a `string | number | null` value. -/
def toNumber (v : Value) : Option ℚ :=
  match v with
  | .vnum q => some q
  | .vstr s => jsNumber s
  | .vnull => some 0

/-- JavaScript `Number(p)` on a `string | number` value. -/
def primToNumber (p : Prim) : Option ℚ :=
  match p with
  | .pnum q => some q
  | .pstr s => jsNumber s

/-- Decimal digits of `r / d`, most significant first, up to `fuel` digits. -/
def fracDigits : Nat → Nat → Nat → List Char
  | 0, _, _ => []
  | _ + 1, 0, _ => []
  | fuel + 1, r, d => Char.ofNat (48 + r * 10 / d) :: fracDigits fuel (r * 10 % d) d

/-- JavaScript `String(q)` on a number, in locale-independent decimal form
(exact for terminating expansions of at most 30 digits, which covers every
number the program produces in the claims below). -/
def ratToString (q : ℚ) : String :=
  if q.den = 1 then toString q.num
  else
    let sgn := if q.num < 0 then "-" else ""
    let n := q.num.natAbs
    sgn ++ toString (n / q.den) ++ "." ++ String.mk (fracDigits 30 (n % q.den) q.den)

/-- JavaScript `String(v)` of a variable value (`vnull` renders as "null",
though interpolation guards it out). -/
def valueToString (v : Value) : String :=
  match v with
  | .vstr s => s
  | .vnum q => ratToString q
  | .vnull => "null"

/-- Does the snapshot resolve placeholder name `w`: the variable exists and
its value is not null (source: `variable && variable.value !== null`). -/
def resolvesName (vars : Vars) (w : String) : Bool :=
  match lookupVar vars w with
  | some v => v.value ≠ .vnull
  | none => false

/-- Replacement text for a matched placeholder with identifier `w`
(source: the regex-replace callback of `interpolateText`). -/
def replaceChunk (vars : Vars) (w : List Char) : List Char :=
  match lookupVar vars (String.mk w) with
  | some v =>
    if v.value ≠ .vnull then (valueToString v.value).data
    else lbrace :: lbrace :: (w ++ rbrace :: rbrace :: [])
  | none => lbrace :: lbrace :: (w ++ rbrace :: rbrace :: [])

/-- Core scanner of `interpolateText`: the global regex
`/\x7b\x7b(\w+)\x7d\x7d/g` applied left to right, each match replaced by
`replaceChunk`; a failed match advances by one character, a successful one
continues after the match, exactly as `String.prototype.replace` does.
The structural fuel argument only serves the recursion; one unit per
character is always enough, and `interpCore` below supplies it. -/
def interpGo (vars : Vars) : Nat → List Char → List Char
  | 0, l => l
  | fuel + 1, l =>
    match l with
    | [] => []
    | [c] => [c]
    | c1 :: c2 :: rest =>
      if c1 = lbrace ∧ c2 = lbrace then
        match rest.dropWhile isWordChar with
        | d1 :: d2 :: r3 =>
          if rest.takeWhile isWordChar ≠ [] ∧ d1 = rbrace ∧ d2 = rbrace then
            replaceChunk vars (rest.takeWhile isWordChar) ++ interpGo vars fuel r3
          else c1 :: interpGo vars fuel (c2 :: rest)
        | _ => c1 :: interpGo vars fuel (c2 :: rest)
      else c1 :: interpGo vars fuel (c2 :: rest)

/-- The scanner applied with enough fuel for its input. -/
def interpCore (vars : Vars) (l : List Char) : List Char :=
  interpGo vars l.length l

/-- Source `interpolateText(text, variables)` from src/utils/interpolation.ts. -/
def interpolateText (text : String) (vars : Vars) : String :=
  String.mk (interpCore vars text.data)

/-- The identifiers of the placeholders the regex matches in a text, in
order (same scan and same fuel discipline as `interpGo`). -/
def placeholdersGo : Nat → List Char → List String
  | 0, _ => []
  | fuel + 1, l =>
    match l with
    | [] => []
    | [_] => []
    | c1 :: c2 :: rest =>
      if c1 = lbrace ∧ c2 = lbrace then
        match rest.dropWhile isWordChar with
        | d1 :: d2 :: r3 =>
          if rest.takeWhile isWordChar ≠ [] ∧ d1 = rbrace ∧ d2 = rbrace then
            String.mk (rest.takeWhile isWordChar) :: placeholdersGo fuel r3
          else placeholdersGo fuel (c2 :: rest)
        | _ => placeholdersGo fuel (c2 :: rest)
      else placeholdersGo fuel (c2 :: rest)

/-- The placeholder identifiers of a character list. -/
def placeholdersCore (l : List Char) : List String :=
  placeholdersGo l.length l

/-- Placeholder identifiers of a text. -/
def placeholdersOf (text : String) : List String :=
  placeholdersCore text.data

/-- A JavaScript comparison operand of `evaluateCondition`:
either a string or a number (`none` = NaN). -/
inductive Operand where
  | ostr (s : String)
  | onum (q : Option ℚ)
deriving DecidableEq, Repr

/-- A non-null variable value as a comparison operand
(the null case is unreachable: `evaluateCondition` returns early on null). -/
def operandOfValue (v : Value) : Operand :=
  match v with
  | .vstr s => .ostr s
  | .vnum q => .onum (some q)
  | .vnull => .onum (some 0)

/-- A `string | number` literal as a comparison operand. -/
def operandOfPrim (p : Prim) : Operand :=
  match p with
  | .pstr s => .ostr s
  | .pnum q => .onum (some q)

/-- JavaScript strict equality `===` on the two operand shapes:
mixed types are unequal, NaN is unequal to everything. -/
def strictEq (a b : Operand) : Bool :=
  match a, b with
  | .ostr x, .ostr y => x = y
  | .onum x, .onum y =>
    match x, y with
    | some p, some q => p = q
    | _, _ => false
  | _, _ => false

/-- `ToNumber` of an operand, for the relational operators. -/
def relNum (a : Operand) : Option ℚ :=
  match a with
  | .ostr s => jsNumber s
  | .onum x => x

/-- JavaScript `<`: lexicographic when both operands are strings,
otherwise numeric with NaN making the comparison false. -/
def jsLT (a b : Operand) : Bool :=
  match a, b with
  | .ostr x, .ostr y => decide (x < y)
  | _, _ =>
    match relNum a, relNum b with
    | some p, some q => decide (p < q)
    | _, _ => false

/-- JavaScript `>`. -/
def jsGT (a b : Operand) : Bool := jsLT b a

/-- JavaScript `<=` (`¬ (b < a)`, except NaN makes it false). -/
def jsLE (a b : Operand) : Bool :=
  match a, b with
  | .ostr x, .ostr y => !decide (y < x)
  | _, _ =>
    match relNum a, relNum b with
    | some p, some q => decide (p ≤ q)
    | _, _ => false

/-- JavaScript `>=`. -/
def jsGE (a b : Operand) : Bool := jsLE b a

/-- Source `evaluateCondition(variableName, operator, value, variables)` from
src/utils/interpolation.ts. The TS signature takes any string operator; the
final `default` arm of its switch returns `false`. -/
def evaluateCondition (variableName : String) (operator : String)
    (value : Prim) (vars : Vars) : Bool :=
  match lookupVar vars variableName with
  | none => false
  | some vbl =>
    match vbl.value with
    | .vnull => false
    | vv =>
      let varValue :=
        if vbl.vtype = .tnumber then Operand.onum (toNumber vv) else operandOfValue vv
      let compareValue :=
        if vbl.vtype = .tnumber then Operand.onum (primToNumber value)
        else operandOfPrim value
      match operator with
      | "==" => strictEq varValue compareValue
      | "!=" => !strictEq varValue compareValue
      | ">" => jsGT varValue compareValue
      | "<" => jsLT varValue compareValue
      | ">=" => jsGE varValue compareValue
      | "<=" => jsLE varValue compareValue
      | _ => false

/-- Block kinds. The shipped src/types/chatbot.ts predates math support, but
the editor (src/App.vue `createBlock('math')`, menu entries) and the canvas
node component (BlockNode.vue, which renders `mathOperation`/`mathValue`)
both use a `math` kind, so the model includes it. `end` is spelled
`endBlock` because `end` is reserved in Lean. -/
inductive BlockType where
  | message
  | openQuestion
  | choiceQuestion
  | condition
  | setVariable
  | math
  | image
  | endBlock
deriving DecidableEq, Repr

/-- Source `Choice`. -/
structure Choice where
  id : String
  label : String
  nextBlockId : Option String := none
deriving DecidableEq, Repr

/-- Source `Condition`. The TS type narrows `operator` to the six comparison
strings; it is modelled as `String` since `evaluateCondition` accepts any. -/
structure Condition where
  id : String
  variableName : String
  operator : String
  value : Prim
  nextBlockId : Option String := none
deriving DecidableEq, Repr

/-- Source `Block`. `mathOperation`/`mathValue` come from the math-enabled
types referenced by BlockNode.vue. -/
structure Block where
  id : String
  type : BlockType
  position : ℚ × ℚ := (0, 0)
  content : String := ""
  choices : Option (List Choice) := none
  variableName : Option String := none
  variableValue : Option String := none
  conditions : Option (List Condition) := none
  imageUrl : Option String := none
  imageData : Option String := none
  nextBlockId : Option String := none
  mathOperation : Option String := none
  mathValue : Option String := none
deriving DecidableEq, Repr

/-- Source `Connection` (the visual edge list). -/
structure Connection where
  id : String
  fromBlockId : String
  fromOutputId : Option String := none
  toBlockId : String
deriving DecidableEq, Repr

/-- Transcript entry roles. -/
inductive MsgType where
  | bot
  | user
  | image
deriving DecidableEq, Repr

/-- Source `ChatMessage`. The source also carries a render key
`id: msg_(Date.now())` taken from the wall clock; being pure view identity
it is not part of the model. -/
structure ChatMessage where
  type : MsgType
  content : String
deriving DecidableEq, Repr

/-- JavaScript truthiness of an optional string (`undefined` and `""` are
falsy). -/
def optTruthy (o : Option String) : Bool :=
  match o with
  | some s => s ≠ ""
  | none => false

/-- The mutable state of PreviewPanel.vue. `parentVariables` is the parent's
`variables` record as updated through `emit('update:variables', ...)`
(App.vue binds that event to plain assignment). -/
structure ChatState where
  messages : List ChatMessage
  currentBlockId : Option String
  userInput : String
  isWaitingForInput : Bool
  currentChoices : List Choice
  sessionVariables : Vars
  isRunning : Bool
  parentVariables : Vars
deriving DecidableEq, Repr

/-- Source `addBotMessage`: interpolate against the session snapshot, push. -/
def addBotMessage (st : ChatState) (content : String) : ChatState :=
  { st with messages :=
      st.messages ++ [⟨.bot, interpolateText content st.sessionVariables⟩] }

/-- Source `addUserMessage`: push the content verbatim. -/
def addUserMessage (st : ChatState) (content : String) : ChatState :=
  { st with messages := st.messages ++ [⟨.user, content⟩] }

/-- Source `addErrorMessage`: a bot entry prefixed by the warning sign. -/
def addErrorMessage (st : ChatState) (content : String) : ChatState :=
  { st with messages := st.messages ++ [⟨.bot, "⚠️ " ++ content⟩] }

/-- Source `addImageMessage`. -/
def addImageMessage (st : ChatState) (url : String) : ChatState :=
  { st with messages := st.messages ++ [⟨.image, url⟩] }

/-- Source `endChat`. -/
def endChat (st : ChatState) : ChatState :=
  { st with isWaitingForInput := false, currentChoices := [], isRunning := false }

/-- Source `syncVariablesToParent`: copy every session variable whose key the
parent record already has into a fresh copy of the parent record and emit it;
session-only keys are ignored. -/
def syncVariablesToParent (st : ChatState) : ChatState :=
  { st with parentVariables :=
      st.parentVariables.map (fun kv =>
        match lookupVar st.sessionVariables kv.1 with
        | some v => (kv.1, v)
        | none => kv) }

/-- `props.blocks.find(b => b.id === id)`. -/
def findBlock (blocks : List Block) (id : String) : Option Block :=
  blocks.find? (fun b => b.id = id)

/-- The flow-error transcript text used by every missing-successor branch. -/
def missingTargetMsg : String := "(Erro de fluxo: bloco de destino não encontrado)"

/-- The shared `if (block.nextBlockId) ... else endChat()` tail of the
`message`, `setVariable` and `image` cases of `processBlock`: resolve the
successor id, or report a flow error, or end the chat when there is none.
The second component is the block the source recurses into. -/
def advanceFrom (blocks : List Block) (st : ChatState) (next : Option String) :
    ChatState × Option Block :=
  match next with
  | some id =>
    if id = "" then (endChat st, none)
    else
      match findBlock blocks id with
      | some nb => ({ st with currentBlockId := some id }, some nb)
      | none => (endChat (addErrorMessage st missingTargetMsg), none)
  | none => (endChat st, none)

/-- One invocation of the `switch` of `processBlock` (PreviewPanel.vue).
The recursive call `processBlock(nextBlock)` (made through `setTimeout`)
is represented by returning the next block; `processBlock` below replays
it. The switch has no `math` case and no `default`, so a `math` block
falls through the switch and the function returns with nothing done. -/
def stepBlock (blocks : List Block) (b : Block) (st : ChatState) :
    ChatState × Option Block :=
  match b.type with
  | .message => advanceFrom blocks (addBotMessage st b.content) b.nextBlockId
  | .openQuestion =>
    ({ addBotMessage st b.content with isWaitingForInput := true, currentChoices := [] },
     none)
  | .choiceQuestion =>
    let st1 := addBotMessage st b.content
    match b.choices with
    | some cs =>
      if cs ≠ [] then
        ({ st1 with currentChoices := cs, isWaitingForInput := false }, none)
      else (endChat (addErrorMessage st1 "(Erro: pergunta sem opções de escolha)"), none)
    | none => (endChat (addErrorMessage st1 "(Erro: pergunta sem opções de escolha)"), none)
  | .condition =>
    let next : Option String :=
      ((b.conditions.getD []).find? (fun c =>
        evaluateCondition c.variableName c.operator c.value st.sessionVariables)).bind
        (fun c => c.nextBlockId)
    match next with
    | some id =>
      if id = "" then (endChat (addErrorMessage st "(Nenhuma condição satisfeita)"), none)
      else
        match findBlock blocks id with
        | some nb => ({ st with currentBlockId := some id }, some nb)
        | none => (endChat (addErrorMessage st missingTargetMsg), none)
    | none => (endChat (addErrorMessage st "(Nenhuma condição satisfeita)"), none)
  | .setVariable =>
    let st1 :=
      match b.variableName with
      | some w =>
        if w ≠ "" then
          match lookupVar st.sessionVariables w with
          | some _ =>
            let interpolatedValue := interpolateText (b.variableValue.getD "") st.sessionVariables
            let newSession := setVarValue st.sessionVariables w (.vstr interpolatedValue)
            syncVariablesToParent { st with sessionVariables := newSession }
          | none => st
        else st
      | none => st
    advanceFrom blocks st1 b.nextBlockId
  | .image =>
    let url : Option String := if optTruthy b.imageData then b.imageData else b.imageUrl
    let st1 :=
      if optTruthy url then addImageMessage st (url.getD "")
      else addErrorMessage st "(Erro: imagem não definida)"
    advanceFrom blocks st1 b.nextBlockId
  | .endBlock =>
    let st1 := if b.content ≠ "" then addBotMessage st b.content else st
    (endChat st1, none)
  | .math => (st, none)

/-- Source `processBlock`, with the `setTimeout` recursion replayed under a
fuel bound (fuel 0 leaves the state as is; every theorem below supplies
enough fuel for its graph). -/
def processBlock (blocks : List Block) : Nat → Block → ChatState → ChatState
  | 0, _, st => st
  | fuel + 1, b, st =>
    match stepBlock blocks b st with
    | (st1, some nb) => processBlock blocks fuel nb st1
    | (st1, none) => st1

/-- Source `startChat`: reset the session, copy the shared variables into the
snapshot, sync once, pick the first `message` block (else the first block) as
entry and process it; an empty graph only reports an error. -/
def startChat (blocks : List Block) (parentVars : Vars) (fuel : Nat) : ChatState :=
  let st0 : ChatState :=
    { messages := [], currentBlockId := none, userInput := "",
      isWaitingForInput := false, currentChoices := [],
      sessionVariables := parentVars, isRunning := true,
      parentVariables := parentVars }
  let st1 := syncVariablesToParent st0
  match blocks with
  | [] => addErrorMessage st1 "Nenhum bloco encontrado. Crie blocos no canvas para começar."
  | b0 :: _ =>
    let startBlock := (blocks.find? (fun b => b.type = .message)).getD b0
    processBlock blocks fuel startBlock { st1 with currentBlockId := some startBlock.id }

/-- `Number(input) || 0` from the open-question answer coercion. -/
def numOrZero (x : Option ℚ) : ℚ :=
  match x with
  | some q => if q = 0 then 0 else q
  | none => 0

/-- Source `handleSendMessage` (PreviewPanel.vue): guard on empty trimmed
input or not awaiting input; append the trimmed input as a user entry; if the
current block is an open question bound to a session variable, store the
coerced answer and sync to the parent; then follow the question's
`nextBlockId` or end the chat. -/
def handleSendMessage (blocks : List Block) (st : ChatState) (fuel : Nat) : ChatState :=
  if jsTrim st.userInput = "" ∨ st.isWaitingForInput = false then st
  else
    let input := jsTrim st.userInput
    let st1 := addUserMessage st input
    let currentBlock := st.currentBlockId.bind (findBlock blocks)
    let st2 :=
      match currentBlock with
      | some cb =>
        if cb.type = BlockType.openQuestion ∧ optTruthy cb.variableName then
          let w := cb.variableName.getD ""
          match lookupVar st1.sessionVariables w with
          | some v =>
            let newVal : Value :=
              if v.vtype = VType.tnumber then .vnum (numOrZero (jsNumber input))
              else .vstr input
            syncVariablesToParent
              { st1 with sessionVariables := setVarValue st1.sessionVariables w newVal }
          | none => st1
        else st1
      | none => st1
    let st3 := { st2 with userInput := "", isWaitingForInput := false }
    match currentBlock with
    | some cb =>
      match cb.nextBlockId with
      | some id =>
        if id = "" then endChat st3
        else
          match findBlock blocks id with
          | some nb => processBlock blocks fuel nb { st3 with currentBlockId := some id }
          | none => endChat (addErrorMessage st3 missingTargetMsg)
      | none => endChat st3
    | none => endChat st3

/-- Source `handleBlockDelete` (Canvas.vue): drop the block, drop every
visual connection touching it, clear the selection if it pointed at it.
`deleteBlockFromMenu` in App.vue performs the same three updates. -/
def handleBlockDelete (blocks : List Block) (connections : List Connection)
    (selectedBlockId : Option String) (blockId : String) :
    List Block × List Connection × Option String :=
  (blocks.filter (fun b => b.id ≠ blockId),
   connections.filter (fun c => c.fromBlockId ≠ blockId ∧ c.toBlockId ≠ blockId),
   if selectedBlockId = some blockId then none else selectedBlockId)

/-- Source `addVariable` (App.vue): plain record assignment
`variables[name] = { name, type, value: type === 'number' ? 0 : '' }`;
an existing entry is overwritten, a new key is appended. -/
def addVariable (vars : Vars) (name : String) (ty : VType) : Vars :=
  let v : Variable := ⟨name, ty, if ty = .tnumber then .vnum 0 else .vstr ""⟩
  if (lookupVar vars name).isSome then
    vars.map (fun kv => if kv.1 = name then (kv.1, v) else kv)
  else vars ++ [(name, v)]

/-- The three alert-and-return rejection branches of variable creation in
VariablesPanel.vue (the second script document in
src/src/components/PropertiesPanel.vue), in source order. -/
inductive CreateError where
  | EmptyName
  | DuplicateName
  | InvalidName
deriving DecidableEq, Repr

/-- The identifier regex of VariablesPanel.vue,
`/^[a-zA-Z_][a-zA-Z0-9_]*$/`. -/
def isValidIdentifier (s : String) : Bool :=
  match s.data with
  | [] => false
  | c :: cs => (c.isAlpha || c = '_') && cs.all isWordChar

/-- Source `addVariable` of VariablesPanel.vue composed with the
`add-variable` handler (App.vue's `addVariable` store assignment): trim the
typed name; reject an empty trimmed name, then a name already present in the
record, then a name failing the identifier regex — each a synchronous alert
returned to the user — and otherwise create the variable under the trimmed
name with the type's initial value. -/
def createVariable (vars : Vars) (typedName : String) (ty : VType) :
    Except CreateError Vars :=
  let name := jsTrim typedName
  if name = "" then .error .EmptyName
  else if (lookupVar vars name).isSome then .error .DuplicateName
  else if ¬ isValidIdentifier name then .error .InvalidName
  else .ok (addVariable vars name ty)

/-! ## Concrete inputs used by the scenario parts, counterexamples and
witnesses below -/

/-- The spec scenario graph, entry message. -/
def scnMessage : Block :=
  { id := "m", type := .message, content := "Hi \x7b\x7bname\x7d\x7d", nextBlockId := some "q" }

/-- The spec scenario graph, open question bound to `name`. -/
def scnQuestion : Block :=
  { id := "q", type := .openQuestion, content := "Name?",
    variableName := some "name", nextBlockId := some "e" }

/-- The spec scenario graph, end step. -/
def scnEnd : Block :=
  { id := "e", type := .endBlock, content := "Bye \x7b\x7bname\x7d\x7d" }

/-- The spec scenario graph. -/
def scnBlocks : List Block := [scnMessage, scnQuestion, scnEnd]

/-- The spec scenario shared store: `name : text`, unset. -/
def scnVars : Vars := [("name", ⟨"name", .tstring, .vnull⟩)]

/-- A math step `count += 5` (`count` unset), the claimed MathOp scenario. -/
def mathDemoBlock : Block :=
  { id := "mt", type := .math, variableName := some "count",
    mathOperation := some "+", mathValue := some "5", nextBlockId := some "e" }

/-- Run state sitting at the math step with `count` unset. -/
def mathDemoState : ChatState :=
  { messages := [], currentBlockId := some "mt", userInput := "",
    isWaitingForInput := false, currentChoices := [],
    sessionVariables := [("count", ⟨"count", .tnumber, .vnull⟩)],
    isRunning := true,
    parentVariables := [("count", ⟨"count", .tnumber, .vnull⟩)] }

/-- A `setVariable` step assigning the non-numeric literal "abc" to the
number-typed variable `x`. -/
def setVarDemoBlock : Block :=
  { id := "sv", type := .setVariable, variableName := some "x",
    variableValue := some "abc" }

/-- Run state for the `setVariable` demo, `x : number = 1`. -/
def setVarDemoState : ChatState :=
  { messages := [], currentBlockId := some "sv", userInput := "",
    isWaitingForInput := false, currentChoices := [],
    sessionVariables := [("x", ⟨"x", .tnumber, .vnum 1⟩)], isRunning := true,
    parentVariables := [("x", ⟨"x", .tnumber, .vnum 1⟩)] }

/-- A condition step with branches `x > 10 → A` then `x > 0 → B`. -/
def condDemoBlock : Block :=
  { id := "c", type := .condition,
    conditions := some
      [⟨"c1", "x", ">", .pstr "10", some "A"⟩,
       ⟨"c2", "x", ">", .pstr "0", some "B"⟩] }

/-- Target block A of the condition demo. -/
def condDemoA : Block := { id := "A", type := .endBlock }

/-- Target block B of the condition demo. -/
def condDemoB : Block := { id := "B", type := .endBlock }

/-- The condition demo graph. -/
def condDemoBlocks : List Block := [condDemoBlock, condDemoA, condDemoB]

/-- Run state for the condition demo with `x = 15`. -/
def condDemoState : ChatState :=
  { messages := [], currentBlockId := some "c", userInput := "",
    isWaitingForInput := false, currentChoices := [],
    sessionVariables := [("x", ⟨"x", .tnumber, .vnum 15⟩)], isRunning := true,
    parentVariables := [] }

/-- Deletion demo: step A points at step B through `nextBlockId`. -/
def delDemoA : Block := { id := "A", type := .message, nextBlockId := some "B" }

/-- Deletion demo: the step to be deleted. -/
def delDemoB : Block := { id := "B", type := .endBlock }

/-- A lone open question bound to the number variable `ans`, with no
successor. -/
def answerDemoBlock : Block :=
  { id := "q0", type := .openQuestion, content := "How many?",
    variableName := some "ans", nextBlockId := none }

/-- Run state awaiting text at `answerDemoBlock` with "42" typed in. -/
def answerDemoState : ChatState :=
  { messages := [], currentBlockId := some "q0", userInput := "42",
    isWaitingForInput := true, currentChoices := [],
    sessionVariables := [("ans", ⟨"ans", .tnumber, .vnull⟩)], isRunning := true,
    parentVariables := [("ans", ⟨"ans", .tnumber, .vnull⟩)] }

/-- A snapshot where `a` resolves to text that is itself a placeholder and
`b` resolves to plain text. -/
def interpDemoVars : Vars :=
  [("a", ⟨"a", .tstring, .vstr "\x7b\x7bb\x7d\x7d"⟩),
   ("b", ⟨"b", .tstring, .vstr "x"⟩)]

/-! ## Lemmas about the interpolation scanner -/

/-- An unresolved placeholder is replaced by its own text. -/
theorem replaceChunk_of_unresolved (vars : Vars) (w : List Char)
    (hres : resolvesName vars (String.mk w) = false) :
    replaceChunk vars w = lbrace :: lbrace :: (w ++ rbrace :: rbrace :: []) := by
  unfold replaceChunk
  unfold resolvesName at hres
  cases hl : lookupVar vars (String.mk w) with
  | none => rfl
  | some v =>
    rw [hl] at hres
    have hv : v.value = Value.vnull := by
      by_contra hne
      simp [hne] at hres
    simp [hv]

/-- If no placeholder of a character list resolves against the snapshot, the
interpolation scanner returns it unchanged (unresolved placeholders are
preserved byte for byte). -/
theorem interpGo_of_unresolved (vars : Vars) :
    ∀ (fuel : Nat) (l : List Char), l.length ≤ fuel →
      (∀ w ∈ placeholdersGo fuel l, resolvesName vars w = false) →
      interpGo vars fuel l = l := by
  intro fuel
  induction fuel with
  | zero => intro l _ _; rfl
  | succ fuel ih =>
    intro l hl h
    match l with
    | [] => rfl
    | [c] => rfl
    | c1 :: c2 :: rest =>
      have hlen : rest.length + 2 ≤ fuel + 1 := by simpa using hl
      by_cases hc : c1 = lbrace ∧ c2 = lbrace
      · cases hd : rest.dropWhile isWordChar with
        | nil =>
          have hp : placeholdersGo (fuel + 1) (c1 :: c2 :: rest)
              = placeholdersGo fuel (c2 :: rest) := by
            simp only [placeholdersGo]
            rw [if_pos hc, hd]
          simp only [interpGo]
          rw [if_pos hc, hd]
          rw [ih (c2 :: rest) (by simp; omega) (by rw [← hp]; exact h)]
        | cons d1 tl =>
          cases tl with
          | nil =>
            have hp : placeholdersGo (fuel + 1) (c1 :: c2 :: rest)
                = placeholdersGo fuel (c2 :: rest) := by
              simp only [placeholdersGo]
              rw [if_pos hc, hd]
            simp only [interpGo]
            rw [if_pos hc, hd]
            rw [ih (c2 :: rest) (by simp; omega) (by rw [← hp]; exact h)]

          | cons d2 r3 =>
            have hdl : (rest.dropWhile isWordChar).length ≤ rest.length :=
              List.Sublist.length_le (List.dropWhile_sublist _)
            rw [hd] at hdl
            simp only [List.length_cons] at hdl
            by_cases hcond : rest.takeWhile isWordChar ≠ [] ∧ d1 = rbrace ∧ d2 = rbrace
            · have hp : placeholdersGo (fuel + 1) (c1 :: c2 :: rest)
                  = String.mk (rest.takeWhile isWordChar) :: placeholdersGo fuel r3 := by
                simp only [placeholdersGo]
                rw [if_pos hc, hd]
                dsimp only
                rw [if_pos hcond]
              have hres : resolvesName vars (String.mk (rest.takeWhile isWordChar)) = false := by
                apply h
                rw [hp]
                exact List.mem_cons_self _ _
              have hrest : ∀ w ∈ placeholdersGo fuel r3, resolvesName vars w = false := by
                intro w hw
                apply h
                rw [hp]
                exact List.mem_cons_of_mem _ hw
              simp only [interpGo]
              rw [if_pos hc, hd]
              dsimp only
              rw [if_pos hcond]
              rw [ih r3 (by omega) hrest, replaceChunk_of_unresolved vars _ hres]
              have hsplit : rest.takeWhile isWordChar ++ (d1 :: d2 :: r3) = rest := by
                rw [← hd]
                exact List.takeWhile_append_dropWhile isWordChar rest
              obtain ⟨hw1, hd1, hd2⟩ := hcond
              obtain ⟨hc1, hc2⟩ := hc
              subst hc1; subst hc2; subst hd1; subst hd2
              simp only [List.cons_append, List.nil_append, List.append_assoc]
              rw [hsplit]
            · have hp : placeholdersGo (fuel + 1) (c1 :: c2 :: rest)
                  = placeholdersGo fuel (c2 :: rest) := by
                simp only [placeholdersGo]
                rw [if_pos hc, hd]
                dsimp only
                rw [if_neg hcond]
              simp only [interpGo]
              rw [if_pos hc, hd]
              dsimp only
              rw [if_neg hcond]
              rw [ih (c2 :: rest) (by simp; omega) (by rw [← hp]; exact h)]
      · have hp : placeholdersGo (fuel + 1) (c1 :: c2 :: rest)
            = placeholdersGo fuel (c2 :: rest) := by
          simp only [placeholdersGo]
          rw [if_neg hc]
        simp only [interpGo]
        rw [if_neg hc]
        rw [ih (c2 :: rest) (by simp; omega) (by rw [← hp]; exact h)]

/-- `interpCore` form of `interpGo_of_unresolved`. -/
theorem interpCore_of_unresolved (vars : Vars) (l : List Char)
    (h : ∀ w ∈ placeholdersCore l, resolvesName vars w = false) :
    interpCore vars l = l :=
  interpGo_of_unresolved vars l.length l (Nat.le_refl _) h

/-- Every unresolved placeholder the scan matches appears in the scanner's
output byte for byte, braces included: its exact text is emitted at the match
point, so it is an infix of the output. This holds for mixed texts in which
other placeholders do resolve. -/
theorem placeholdersGo_infix_unresolved (vars : Vars) :
    ∀ (fuel : Nat) (l : List Char) (w : String), l.length ≤ fuel →
      w ∈ placeholdersGo fuel l → resolvesName vars w = false →
      List.IsInfix (lbrace :: lbrace :: (w.data ++ rbrace :: rbrace :: []))
        (interpGo vars fuel l) := by
  intro fuel
  induction fuel with
  | zero =>
    intro l w _ hw _
    simp [placeholdersGo] at hw
  | succ fuel ih =>
    intro l w hl hw hres
    match l with
    | [] => simp [placeholdersGo] at hw
    | [c] => simp [placeholdersGo] at hw
    | c1 :: c2 :: rest =>
      have hlen : rest.length + 2 ≤ fuel + 1 := by simpa using hl
      by_cases hc : c1 = lbrace ∧ c2 = lbrace
      · cases hd : rest.dropWhile isWordChar with
        | nil =>
          have hp : placeholdersGo (fuel + 1) (c1 :: c2 :: rest)
              = placeholdersGo fuel (c2 :: rest) := by
            simp only [placeholdersGo]
            rw [if_pos hc, hd]
          have hstep : interpGo vars (fuel + 1) (c1 :: c2 :: rest)
              = c1 :: interpGo vars fuel (c2 :: rest) := by
            simp only [interpGo]
            rw [if_pos hc, hd]
          rw [hp] at hw
          rw [hstep]
          obtain ⟨s, t, hst⟩ := ih (c2 :: rest) w (by simp; omega) hw hres
          exact ⟨c1 :: s, t, by simp [hst]⟩
        | cons d1 tl =>
          cases tl with
          | nil =>
            have hp : placeholdersGo (fuel + 1) (c1 :: c2 :: rest)
                = placeholdersGo fuel (c2 :: rest) := by
              simp only [placeholdersGo]
              rw [if_pos hc, hd]
            have hstep : interpGo vars (fuel + 1) (c1 :: c2 :: rest)
                = c1 :: interpGo vars fuel (c2 :: rest) := by
              simp only [interpGo]
              rw [if_pos hc, hd]
            rw [hp] at hw
            rw [hstep]
            obtain ⟨s, t, hst⟩ := ih (c2 :: rest) w (by simp; omega) hw hres
            exact ⟨c1 :: s, t, by simp [hst]⟩
          | cons d2 r3 =>
            have hdl : (rest.dropWhile isWordChar).length ≤ rest.length :=
              List.Sublist.length_le (List.dropWhile_sublist _)
            rw [hd] at hdl
            simp only [List.length_cons] at hdl
            by_cases hcond : rest.takeWhile isWordChar ≠ [] ∧ d1 = rbrace ∧ d2 = rbrace
            · have hp : placeholdersGo (fuel + 1) (c1 :: c2 :: rest)
                  = String.mk (rest.takeWhile isWordChar) :: placeholdersGo fuel r3 := by
                simp only [placeholdersGo]
                rw [if_pos hc, hd]
                dsimp only
                rw [if_pos hcond]
              have hstep : interpGo vars (fuel + 1) (c1 :: c2 :: rest)
                  = replaceChunk vars (rest.takeWhile isWordChar)
                      ++ interpGo vars fuel r3 := by
                simp only [interpGo]
                rw [if_pos hc, hd]
                dsimp only
                rw [if_pos hcond]
              rw [hp] at hw
              rw [hstep]
              rcases List.mem_cons.mp hw with heq | hmem
              · subst heq
                rw [replaceChunk_of_unresolved vars _ hres]
                exact ⟨[], interpGo vars fuel r3, by simp⟩
              · obtain ⟨s, t, hst⟩ := ih r3 w (by omega) hmem hres
                exact ⟨replaceChunk vars (rest.takeWhile isWordChar) ++ s, t,
                  by simp [← hst, List.append_assoc]⟩
            · have hp : placeholdersGo (fuel + 1) (c1 :: c2 :: rest)
                  = placeholdersGo fuel (c2 :: rest) := by
                simp only [placeholdersGo]
                rw [if_pos hc, hd]
                dsimp only
                rw [if_neg hcond]
              have hstep : interpGo vars (fuel + 1) (c1 :: c2 :: rest)
                  = c1 :: interpGo vars fuel (c2 :: rest) := by
                simp only [interpGo]
                rw [if_pos hc, hd]
                dsimp only
                rw [if_neg hcond]
              rw [hp] at hw
              rw [hstep]
              obtain ⟨s, t, hst⟩ := ih (c2 :: rest) w (by simp; omega) hw hres
              exact ⟨c1 :: s, t, by simp [hst]⟩
      · have hp : placeholdersGo (fuel + 1) (c1 :: c2 :: rest)
            = placeholdersGo fuel (c2 :: rest) := by
          simp only [placeholdersGo]
          rw [if_neg hc]
        have hstep : interpGo vars (fuel + 1) (c1 :: c2 :: rest)
            = c1 :: interpGo vars fuel (c2 :: rest) := by
          simp only [interpGo]
          rw [if_neg hc]
        rw [hp] at hw
        rw [hstep]
        obtain ⟨s, t, hst⟩ := ih (c2 :: rest) w (by simp; omega) hw hres
        exact ⟨c1 :: s, t, by simp [hst]⟩

/-! ## Helper lemmas about the interpreter state -/

/-- `advanceFrom` never touches the session snapshot. -/
theorem advanceFrom_fst_sessionVariables (blocks : List Block) (st : ChatState)
    (next : Option String) :
    ((advanceFrom blocks st next).1).sessionVariables = st.sessionVariables := by
  unfold advanceFrom
  cases next with
  | none => rfl
  | some id =>
    by_cases hid : id = ""
    · simp [hid, endChat]
    · simp only [hid, if_false]
      cases findBlock blocks id with
      | none => simp [endChat, addErrorMessage]
      | some nb => rfl

/-- One unfolding step of `lookupVar`. -/
theorem lookupVar_cons (k : String) (v : Variable) (rest : Vars) (name : String) :
    lookupVar ((k, v) :: rest) name = if k = name then some v else lookupVar rest name := rfl

/-- Updating a variable's value and looking the same name up. -/
theorem lookupVar_setVarValue_self (vars : Vars) (w : String) (x : Value) :
    lookupVar (setVarValue vars w x) w
      = (lookupVar vars w).map (fun v => { v with value := x }) := by
  induction vars with
  | nil => rfl
  | cons kv rest ih =>
    cases kv with
    | mk k v =>
      by_cases h : k = w
      · subst h
        rw [show setVarValue ((k, v) :: rest) k x
              = (k, { v with value := x }) :: setVarValue rest k x from by
            simp [setVarValue]]
        rw [lookupVar_cons, lookupVar_cons, if_pos rfl, if_pos rfl]
        rfl
      · rw [show setVarValue ((k, v) :: rest) w x = (k, v) :: setVarValue rest w x from by
            simp [setVarValue, h]]
        rw [lookupVar_cons, lookupVar_cons, if_neg h, if_neg h]
        exact ih

/-- Looking up a freshly appended record entry. -/
theorem lookupVar_append_self (vars : Vars) (name : String) (v : Variable)
    (h : lookupVar vars name = none) :
    lookupVar (vars ++ [(name, v)]) name = some v := by
  induction vars with
  | nil => simp [lookupVar]
  | cons kv rest ih =>
    cases kv with
    | mk k u =>
      rw [lookupVar_cons] at h
      rw [List.cons_append, lookupVar_cons]
      by_cases hk : k = name
      · rw [if_pos hk] at h
        exact absurd h (by simp)
      · rw [if_neg hk] at h ⊢
        exact ih h

/-! ## Claim theorems -/

/-- C1: the spec requires a MathOp step to resolve its operand, apply the
operator to the bound variable and advance to `defaultNext`; the interpreter
switch in PreviewPanel.vue has no `math` case and no default, so executing a
math step changes nothing at all — no variable update, no transcript entry,
no advance (the run silently stalls while still `isRunning`). -/
theorem math_step_unsupported (blocks : List Block) (b : Block) (st : ChatState)
    (hb : b.type = BlockType.math) :
    stepBlock blocks b st = (st, none) := by
  unfold stepBlock
  rw [hb]

/-- Witness for C1 at the claimed scenario input: a `count += 5` math step
with `count` unset leaves `count` unset (instead of the claimed `5`), keeps
the run marked as running and does not advance to `defaultNext`. -/
theorem math_step_unsupported_witness :
    stepBlock [mathDemoBlock] mathDemoBlock mathDemoState = (mathDemoState, none)
    ∧ lookupVar ((stepBlock [mathDemoBlock] mathDemoBlock mathDemoState).1.sessionVariables)
        "count" = some ⟨"count", .tnumber, .vnull⟩
    ∧ ((stepBlock [mathDemoBlock] mathDemoBlock mathDemoState).1).isRunning = true := by
  have h := math_step_unsupported [mathDemoBlock] mathDemoBlock mathDemoState rfl
  refine ⟨h, ?_, ?_⟩
  · rw [h]
    decide
  · rw [h]
    decide

/-- Counterexample for C3: deleting step "B" removes it and its visual
connection, yet the surviving step "A" still has `nextBlockId = "B"` — a
remaining step's successor reference equals the deleted id, which the claim
says cannot happen. -/
theorem delete_dangling_next_cex :
    (handleBlockDelete [delDemoA, delDemoB] [⟨"c1", "A", none, "B"⟩] none "B").1
      = [delDemoA]
    ∧ delDemoA.nextBlockId = some "B" := by
  decide

/-- C3 (amended): deletion removes the step itself and every entry of the
visual Connection list incident to it, and clears a matching selection;
the surviving steps are kept unchanged, so block-embedded successor
references (`nextBlockId` on steps, choices and conditions) pointing at the
deleted id are left in place. -/
theorem handleBlockDelete_spec (blocks : List Block) (conns : List Connection)
    (sel : Option String) (blockId : String) (b : Block) (c : Connection) :
    (b ∈ (handleBlockDelete blocks conns sel blockId).1 → b.id ≠ blockId ∧ b ∈ blocks)
  ∧ (c ∈ (handleBlockDelete blocks conns sel blockId).2.1 →
       c.fromBlockId ≠ blockId ∧ c.toBlockId ≠ blockId ∧ c ∈ conns)
  ∧ (handleBlockDelete blocks conns sel blockId).2.2
      = (if sel = some blockId then none else sel) := by
  unfold handleBlockDelete
  dsimp only
  refine ⟨?_, ?_, rfl⟩
  · intro hb
    rw [List.mem_filter] at hb
    refine ⟨?_, hb.1⟩
    have := hb.2
    simpa using this
  · intro hc
    rw [List.mem_filter] at hc
    have h2 := hc.2
    simp only [decide_eq_true_eq, Bool.and_eq_true, decide_not, Bool.not_eq_true,
      decide_eq_false_iff_not] at h2
    exact ⟨h2.1, h2.2, hc.1⟩

/-- Witness for C3's amended theorem at the deletion demo. -/
theorem handleBlockDelete_spec_witness :
    (delDemoA.id ≠ "B" ∧ delDemoA ∈ [delDemoA, delDemoB])
    ∧ (handleBlockDelete [delDemoA, delDemoB] [⟨"c1", "A", none, "B"⟩] none "B").2.2 = none := by
  have h := handleBlockDelete_spec [delDemoA, delDemoB] [⟨"c1", "A", none, "B"⟩]
    none "B" delDemoA ⟨"c1", "A", none, "B"⟩
  refine ⟨h.1 (by decide), ?_⟩
  rw [h.2.2]
  decide

/-- Counterexample for C4: the typed name " x " does not match the
identifier pattern `[A-Za-z_][A-Za-z0-9_]*`, yet creation does not fail with
`InvalidName` — the panel trims the name first and creates the variable under
"x". -/
theorem createVariable_trims_cex :
    isValidIdentifier " x " = false
    ∧ createVariable [] " x " .tnumber = .ok (addVariable [] "x" .tnumber)
    ∧ lookupVar (addVariable [] "x" .tnumber) "x" = some ⟨"x", .tnumber, .vnum 0⟩ := by
  refine ⟨by decide, by rfl, by decide⟩

/-- C4 (amended): variable creation first trims the typed name; it rejects an
empty trimmed name (`EmptyName`), then a trimmed name already present in the
store (`DuplicateName`, leaving the store unchanged), then a trimmed name not
matching `[A-Za-z_][A-Za-z0-9_]*` (`InvalidName`) — all synchronous
rejections surfaced to the caller in the editor, never run-time interpreter
errors — and otherwise creates the variable under the trimmed name with
value `0` for `number` and empty text for `text`. -/
theorem createVariable_spec (vars : Vars) (typedName : String) (ty : VType) :
    (jsTrim typedName = "" → createVariable vars typedName ty = .error .EmptyName)
  ∧ (jsTrim typedName ≠ "" → (lookupVar vars (jsTrim typedName)).isSome = true →
       createVariable vars typedName ty = .error .DuplicateName)
  ∧ (jsTrim typedName ≠ "" → lookupVar vars (jsTrim typedName) = none →
       isValidIdentifier (jsTrim typedName) = false →
       createVariable vars typedName ty = .error .InvalidName)
  ∧ (jsTrim typedName ≠ "" → lookupVar vars (jsTrim typedName) = none →
       isValidIdentifier (jsTrim typedName) = true →
       createVariable vars typedName ty = .ok (addVariable vars (jsTrim typedName) ty)
       ∧ lookupVar (addVariable vars (jsTrim typedName) ty) (jsTrim typedName)
           = some ⟨jsTrim typedName, ty,
               if ty = VType.tnumber then .vnum 0 else .vstr ""⟩) := by
  refine ⟨?_, ?_, ?_, ?_⟩
  · intro h
    simp [createVariable, h]
  · intro h0 h
    simp [createVariable, h0, h]
  · intro h0 h1 h2
    simp [createVariable, h0, h1, h2]
  · intro h0 h1 h2
    constructor
    · simp [createVariable, h0, h1, h2]
    · have ha : addVariable vars (jsTrim typedName) ty
          = vars ++ [(jsTrim typedName,
              ⟨jsTrim typedName, ty, if ty = VType.tnumber then .vnum 0 else .vstr ""⟩)] := by
        simp [addVariable, h1]
      rw [ha]
      exact lookupVar_append_self vars (jsTrim typedName) _ h1

/-- Witness for C4's amended theorem: whitespace-only input is rejected as
empty; " x " collides with an existing "x"; "1x" fails the identifier
pattern; " x_1 " is created as "x_1" initialized to 0. -/
theorem createVariable_spec_witness :
    createVariable [] "   " .tnumber = .error .EmptyName
    ∧ createVariable [("x", ⟨"x", .tnumber, .vnum 3⟩)] " x " .tstring
        = .error .DuplicateName
    ∧ createVariable [] "1x" .tnumber = .error .InvalidName
    ∧ createVariable [] " x_1 " .tnumber = .ok (addVariable [] (jsTrim " x_1 ") .tnumber)
    ∧ lookupVar (addVariable [] (jsTrim " x_1 ") .tnumber) (jsTrim " x_1 ")
        = some ⟨jsTrim " x_1 ", .tnumber, .vnum 0⟩ := by
  have h1 := (createVariable_spec [] "   " .tnumber).1 (by decide)
  have h2 := (createVariable_spec [("x", ⟨"x", .tnumber, .vnum 3⟩)] " x " .tstring).2.1
    (by decide) (by decide)
  have h3 := (createVariable_spec [] "1x" .tnumber).2.2.1 (by decide) (by decide) (by decide)
  have h4 := (createVariable_spec [] " x_1 " .tnumber).2.2.2 (by decide) (by decide) (by decide)
  exact ⟨h1, h2, h3, h4.1, by rw [h4.2]; decide⟩

/-- C10: submitting while the input box is empty or whitespace-only, or while
the interpreter is not awaiting text, is a complete no-op: `handleSendMessage`
returns on its guard, so the whole state (transcript, snapshot, shared
variables, awaiting flag) is exactly unchanged. -/
theorem handleSendMessage_noop (blocks : List Block) (st : ChatState) (fuel : Nat)
    (h : jsTrim st.userInput = "" ∨ st.isWaitingForInput = false) :
    handleSendMessage blocks st fuel = st := by
  unfold handleSendMessage
  rw [if_pos h]

/-- Witness for C10: a whitespace-only submission while awaiting, and a
non-empty submission while not awaiting, both leave the state unchanged. -/
theorem handleSendMessage_noop_witness :
    handleSendMessage scnBlocks
        { mathDemoState with userInput := "   ", isWaitingForInput := true } 5
      = { mathDemoState with userInput := "   ", isWaitingForInput := true }
    ∧ handleSendMessage scnBlocks { mathDemoState with userInput := "hello" } 5
      = { mathDemoState with userInput := "hello" } := by
  constructor
  · exact handleSendMessage_noop scnBlocks _ 5 (Or.inl (by decide))
  · exact handleSendMessage_noop scnBlocks _ 5 (Or.inr rfl)

/-- NaN (or any missing number) poisons strict equality and every relational
comparison into `false`. -/
theorem nan_comparisons (a b : Option ℚ) (h : a = none ∨ b = none) :
    strictEq (.onum a) (.onum b) = false
    ∧ jsLT (.onum a) (.onum b) = false
    ∧ jsGT (.onum a) (.onum b) = false
    ∧ jsLE (.onum a) (.onum b) = false
    ∧ jsGE (.onum a) (.onum b) = false := by
  cases h with
  | inl h =>
    subst h
    cases b <;> simp [strictEq, jsLT, jsGT, jsLE, jsGE, relNum]
  | inr h =>
    subst h
    cases a <;> simp [strictEq, jsLT, jsGT, jsLE, jsGE, relNum]

/-- For a number-typed variable with a non-null value, `evaluateCondition`
reduces to the numeric comparison of `Number(variable.value)` against
`Number(value)`. -/
theorem evaluateCondition_number_unfold (name op : String) (value : Prim)
    (vars : Vars) (v : Variable) (hl : lookupVar vars name = some v)
    (htype : v.vtype = VType.tnumber) (hvv : v.value ≠ Value.vnull) :
    evaluateCondition name op value vars =
      (match op with
       | "==" => strictEq (.onum (toNumber v.value)) (.onum (primToNumber value))
       | "!=" => !strictEq (.onum (toNumber v.value)) (.onum (primToNumber value))
       | ">" => jsGT (.onum (toNumber v.value)) (.onum (primToNumber value))
       | "<" => jsLT (.onum (toNumber v.value)) (.onum (primToNumber value))
       | ">=" => jsGE (.onum (toNumber v.value)) (.onum (primToNumber value))
       | "<=" => jsLE (.onum (toNumber v.value)) (.onum (primToNumber value))
       | _ => false) := by
  unfold evaluateCondition
  rw [hl]
  cases hval : v.value with
  | vnull => exact absurd hval hvv
  | vstr s =>
    rw [← hval]
    simp only [htype, if_pos rfl, hval]
    rw [← hval]
    simp
  | vnum q =>
    rw [← hval]
    simp only [htype, if_pos rfl, hval]
    rw [← hval]
    simp

/-- C8: `evaluateCondition` is total (the Lean embedding is a total
function, matching the no-throw contract) and returns `false` whenever the
named variable is absent from the snapshot, whenever its value is null, and
whenever the operator is not one of the six known comparison strings. -/
theorem evaluateCondition_guard_false (name op : String) (value : Prim) (vars : Vars) :
    (lookupVar vars name = none → evaluateCondition name op value vars = false)
  ∧ (∀ v, lookupVar vars name = some v → v.value = Value.vnull →
       evaluateCondition name op value vars = false)
  ∧ (op ≠ "==" → op ≠ "!=" → op ≠ ">" → op ≠ "<" → op ≠ ">=" → op ≠ "<=" →
       evaluateCondition name op value vars = false) := by
  refine ⟨?_, ?_, ?_⟩
  · intro h
    simp [evaluateCondition, h]
  · intro v hl hv
    simp [evaluateCondition, hl, hv]
  · intro h1 h2 h3 h4 h5 h6
    unfold evaluateCondition
    cases hl : lookupVar vars name with
    | none => rfl
    | some v =>
      cases hv : v.value with
      | vnull => simp [hv]
      | vstr s =>
        simp only [hv]
      | vnum q =>
        simp only [hv]

/-- Witness for C8: an absent variable, a null-valued variable and an unknown
operator each make the evaluator answer `false`. -/
theorem evaluateCondition_guard_false_witness :
    evaluateCondition "missing" ">" (.pstr "1") [] = false
    ∧ evaluateCondition "u" "==" (.pstr "1") [("u", ⟨"u", .tstring, .vnull⟩)] = false
    ∧ evaluateCondition "x" "~~" (.pstr "1") [("x", ⟨"x", .tnumber, .vnum 5⟩)] = false := by
  refine ⟨?_, ?_, ?_⟩
  · exact (evaluateCondition_guard_false "missing" ">" (.pstr "1") []).1 rfl
  · exact (evaluateCondition_guard_false "u" "==" (.pstr "1")
      [("u", ⟨"u", .tstring, .vnull⟩)]).2.1 _ rfl rfl
  · exact (evaluateCondition_guard_false "x" "~~" (.pstr "1")
      [("x", ⟨"x", .tnumber, .vnum 5⟩)]).2.2 (by decide) (by decide) (by decide)
      (by decide) (by decide) (by decide)

/-- Counterexample for C9: with `x : number` holding the non-numeric text
"abc" (so `Number` parsing fails), `evaluateCondition x != 5` returns `true`,
not the claimed `false` — JavaScript strict inequality holds of NaN. -/
theorem evaluateCondition_neq_nan_cex :
    jsNumber "abc" = none
    ∧ evaluateCondition "x" "!=" (.pstr "5") [("x", ⟨"x", .tnumber, .vstr "abc"⟩)] = true := by
  decide

/-- C9 (amended): for a number-typed variable with a set value, both the
variable's value and the comparison value are coerced by `Number`; if either
coercion fails (NaN), the comparisons `==`, `>`, `<`, `>=`, `<=` all yield
`false` without throwing, while `!=` yields `true` (strict inequality is
satisfied by NaN). -/
theorem evaluateCondition_parse_failure (name : String) (value : Prim)
    (vars : Vars) (v : Variable) (hl : lookupVar vars name = some v)
    (htype : v.vtype = VType.tnumber) (hvv : v.value ≠ Value.vnull)
    (hnan : toNumber v.value = none ∨ primToNumber value = none) :
    evaluateCondition name "==" value vars = false
    ∧ evaluateCondition name ">" value vars = false
    ∧ evaluateCondition name "<" value vars = false
    ∧ evaluateCondition name ">=" value vars = false
    ∧ evaluateCondition name "<=" value vars = false
    ∧ evaluateCondition name "!=" value vars = true := by
  have hcmp := nan_comparisons (toNumber v.value) (primToNumber value) hnan
  refine ⟨?_, ?_, ?_, ?_, ?_, ?_⟩
  · rw [evaluateCondition_number_unfold name "==" value vars v hl htype hvv]
    exact hcmp.1
  · rw [evaluateCondition_number_unfold name ">" value vars v hl htype hvv]
    exact hcmp.2.2.1
  · rw [evaluateCondition_number_unfold name "<" value vars v hl htype hvv]
    exact hcmp.2.1
  · rw [evaluateCondition_number_unfold name ">=" value vars v hl htype hvv]
    exact hcmp.2.2.2.2
  · rw [evaluateCondition_number_unfold name "<=" value vars v hl htype hvv]
    exact hcmp.2.2.2.1
  · rw [evaluateCondition_number_unfold name "!=" value vars v hl htype hvv]
    simp [hcmp.1]

/-- Witness for C9's amended theorem at `x : number = "abc"` against "5". -/
theorem evaluateCondition_parse_failure_witness :
    evaluateCondition "x" "==" (.pstr "5") [("x", ⟨"x", .tnumber, .vstr "abc"⟩)] = false
    ∧ evaluateCondition "x" ">" (.pstr "5") [("x", ⟨"x", .tnumber, .vstr "abc"⟩)] = false
    ∧ evaluateCondition "x" "!=" (.pstr "5") [("x", ⟨"x", .tnumber, .vstr "abc"⟩)] = true := by
  have h := evaluateCondition_parse_failure "x" (.pstr "5")
    [("x", ⟨"x", .tnumber, .vstr "abc"⟩)] ⟨"x", .tnumber, .vstr "abc"⟩
    rfl rfl (by decide) (Or.inl (by decide))
  exact ⟨h.1, h.2.1, h.2.2.2.2.2⟩

/-- Counterexample for C2: a `setVariable` step assigning the non-numeric
literal "abc" to the number-typed variable `x` stores the text "abc" itself
— not the claimed numeric coercion result `0`. -/
theorem setVariable_stores_text_cex :
    lookupVar ((stepBlock [setVarDemoBlock] setVarDemoBlock setVarDemoState).1.sessionVariables)
        "x" = some ⟨"x", .tnumber, .vstr "abc"⟩
    ∧ Value.vstr "abc" ≠ Value.vnum 0 := by
  decide

/-- C2 (amended): a `setVariable` step whose `boundVariable` is present in
the snapshot stores the interpolated `assignedValue` as the variable's value
verbatim (a text, with no coercion to the variable's declared type), merges
the snapshot back to the shared store, and advances through `defaultNext`;
when the variable is absent the assignment is skipped silently and execution
still advances. -/
theorem setVariable_step_spec (blocks : List Block) (b : Block) (st : ChatState)
    (w : String) (hb : b.type = BlockType.setVariable)
    (hw : b.variableName = some w) (hwne : w ≠ "") :
    (∀ v, lookupVar st.sessionVariables w = some v →
       stepBlock blocks b st =
         advanceFrom blocks
           (syncVariablesToParent
             { st with sessionVariables := setVarValue st.sessionVariables w (.vstr (interpolateText (b.variableValue.getD "") st.sessionVariables)) })
           b.nextBlockId
       ∧ lookupVar ((stepBlock blocks b st).1.sessionVariables) w
           = some { v with value := Value.vstr (interpolateText (b.variableValue.getD "") st.sessionVariables) })
  ∧ (lookupVar st.sessionVariables w = none →
       stepBlock blocks b st = advanceFrom blocks st b.nextBlockId) := by
  constructor
  · intro v hv
    have hstep : stepBlock blocks b st =
        advanceFrom blocks
          (syncVariablesToParent
            { st with sessionVariables := setVarValue st.sessionVariables w (.vstr (interpolateText (b.variableValue.getD "") st.sessionVariables)) })
          b.nextBlockId := by
      unfold stepBlock
      rw [hb, hw]
      simp [hwne, hv]
    refine ⟨hstep, ?_⟩
    rw [hstep, advanceFrom_fst_sessionVariables]
    show lookupVar (setVarValue st.sessionVariables w _) w = _
    rw [lookupVar_setVarValue_self, hv]
    rfl
  · intro hv
    unfold stepBlock
    rw [hb, hw]
    simp [hwne, hv]

/-- Witness for C2's amended theorem at the "abc" demo input. -/
theorem setVariable_step_spec_witness :
    lookupVar ((stepBlock [setVarDemoBlock] setVarDemoBlock setVarDemoState).1.sessionVariables)
        "x"
      = some { name := "x", vtype := .tnumber, value := .vstr "abc" } := by
  have h := (setVariable_step_spec [setVarDemoBlock] setVarDemoBlock setVarDemoState
    "x" rfl rfl (by decide)).1 ⟨"x", .tnumber, .vnum 1⟩ (by decide)
  have h2 := h.2
  rw [h2]
  decide

/-- C6: condition branches are evaluated strictly in list order and the first
satisfied branch determines the successor (first-match); a satisfied branch
whose target id is missing from the graph yields the reported flow error and
halts; when no branch is satisfied an error entry is appended and the run
finishes in the error state instead of falling through. The demo conjunct
routes `x = 15` through branches `[x>10 → A, x>0 → B]` to `A`. -/
theorem condition_first_match_spec (blocks : List Block) (b : Block) (st : ChatState)
    (hb : b.type = BlockType.condition) :
    (((b.conditions.getD []).find? (fun c =>
         evaluateCondition c.variableName c.operator c.value st.sessionVariables) = none) →
       stepBlock blocks b st
         = (endChat (addErrorMessage st "(Nenhuma condição satisfeita)"), none))
  ∧ (∀ c id nb,
       (b.conditions.getD []).find? (fun c =>
         evaluateCondition c.variableName c.operator c.value st.sessionVariables) = some c →
       c.nextBlockId = some id → id ≠ "" → findBlock blocks id = some nb →
       stepBlock blocks b st = ({ st with currentBlockId := some id }, some nb))
  ∧ (∀ c id,
       (b.conditions.getD []).find? (fun c =>
         evaluateCondition c.variableName c.operator c.value st.sessionVariables) = some c →
       c.nextBlockId = some id → id ≠ "" → findBlock blocks id = none →
       stepBlock blocks b st = (endChat (addErrorMessage st missingTargetMsg), none))
  ∧ stepBlock condDemoBlocks condDemoBlock condDemoState
      = ({ condDemoState with currentBlockId := some "A" }, some condDemoA) := by
  refine ⟨?_, ?_, ?_, ?_⟩
  · intro hf
    unfold stepBlock
    rw [hb]
    simp [hf]
  · intro c id nb hf hn hid hfind
    unfold stepBlock
    rw [hb]
    simp [hf, hn, hid, hfind]
  · intro c id hf hn hid hfind
    unfold stepBlock
    rw [hb]
    simp [hf, hn, hid, hfind]
  · decide

/-- Witness for C6 exercising the first-match route at the demo input. -/
theorem condition_first_match_spec_witness :
    stepBlock condDemoBlocks condDemoBlock condDemoState
      = ({ condDemoState with currentBlockId := some "A" }, some condDemoA) := by
  exact (condition_first_match_spec condDemoBlocks condDemoBlock condDemoState
    rfl).2.2.2

/-- Counterexample for C7: in a snapshot where `a` holds the text "{{b}}"
and `b` holds "x", every placeholder of the text "{{a}}" resolves, yet
interpolation is not idempotent: one pass yields "{{b}}" and a second pass
yields "x". This refutes the claimed equivalence in the right-to-left
direction. -/
theorem interpolate_idempotence_cex :
    (∀ w ∈ placeholdersOf "\x7b\x7ba\x7d\x7d", resolvesName interpDemoVars w = true)
    ∧ interpolateText "\x7b\x7ba\x7d\x7d" interpDemoVars = "\x7b\x7bb\x7d\x7d"
    ∧ interpolateText (interpolateText "\x7b\x7ba\x7d\x7d" interpDemoVars) interpDemoVars
        = "x"
    ∧ ("x" : String) ≠ "\x7b\x7bb\x7d\x7d" := by
  decide

/-- C7 (amended): every unresolved placeholder the scan matches appears in
the interpolation output byte for byte, braces included — its exact text
`\x7b\x7bw\x7d\x7d` is an infix of the output, also in mixed texts where
other placeholders resolve (the closed conjunct evaluates such a mixed
text) — and a text none of whose placeholders resolves is returned exactly
unchanged; interpolation is idempotent whenever no placeholder of its output
resolves. The claimed "idempotent iff every placeholder resolves" fails
because a resolved value may itself contain placeholder text. -/
theorem interpolate_unresolved_preserved (t : String) (vars : Vars) :
    ((∀ w ∈ placeholdersOf t, resolvesName vars w = false) → interpolateText t vars = t)
  ∧ ((∀ w ∈ placeholdersOf (interpolateText t vars), resolvesName vars w = false) →
       interpolateText (interpolateText t vars) vars = interpolateText t vars)
  ∧ (∀ w, w ∈ placeholdersOf t → resolvesName vars w = false →
       List.IsInfix (lbrace :: lbrace :: (w.data ++ rbrace :: rbrace :: []))
         (interpolateText t vars).data)
  ∧ interpolateText "Hi \x7b\x7bname\x7d\x7d, \x7b\x7bmissing\x7d\x7d!"
      [("name", ⟨"name", VType.tstring, Value.vstr "Ada"⟩)]
      = "Hi Ada, \x7b\x7bmissing\x7d\x7d!" := by
  refine ⟨?_, ?_, ?_, by decide⟩
  · intro h
    show String.mk (interpCore vars t.data) = t
    rw [interpCore_of_unresolved vars t.data h]
  · intro h
    show String.mk (interpCore vars (interpolateText t vars).data) = interpolateText t vars
    rw [interpCore_of_unresolved vars (interpolateText t vars).data h]
  · intro w hw hres
    exact placeholdersGo_infix_unresolved vars t.data.length t.data w
      (Nat.le_refl _) hw hres

/-- Witness for C7's amended theorem: a placeholder-free text and a
fully-unresolved text interpolate to themselves, and in the mixed text
"\x7b\x7ba\x7d\x7d \x7b\x7bzz\x7d\x7d" (where `a` resolves and `zz`
does not) the unresolved placeholder survives in the output byte for
byte. -/
theorem interpolate_unresolved_preserved_witness :
    interpolateText "plain text" interpDemoVars = "plain text"
    ∧ interpolateText "\x7b\x7bmissing\x7d\x7d" interpDemoVars
        = "\x7b\x7bmissing\x7d\x7d"
    ∧ List.IsInfix (lbrace :: lbrace :: (("zz" : String).data ++ rbrace :: rbrace :: []))
        (interpolateText "\x7b\x7ba\x7d\x7d \x7b\x7bzz\x7d\x7d" interpDemoVars).data := by
  refine ⟨?_, ?_, ?_⟩
  · exact (interpolate_unresolved_preserved "plain text" interpDemoVars).1 (by decide)
  · exact (interpolate_unresolved_preserved "\x7b\x7bmissing\x7d\x7d" interpDemoVars).1
      (by decide)
  · exact (interpolate_unresolved_preserved "\x7b\x7ba\x7d\x7d \x7b\x7bzz\x7d\x7d"
      interpDemoVars).2.2.1 "zz" (by decide) (by decide)

/-- Counterexample for C5: submitting "  Ada  " (whitespace-padded) in the
spec scenario appends the user entry "Ada" — the trimmed text, not the
literal submitted text. -/
theorem submit_text_trim_cex :
    (handleSendMessage scnBlocks
        { startChat scnBlocks scnVars 3 with userInput := "  Ada  " } 3).messages
      = [⟨.bot, "Hi \x7b\x7bname\x7d\x7d"⟩, ⟨.bot, "Name?"⟩, ⟨.user, "Ada"⟩,
         ⟨.bot, "Bye Ada"⟩]
    ∧ ("Ada" : String) ≠ "  Ada  " := by
  decide

/-- C5 (amended): a valid submission while awaiting text appends a user
transcript entry holding the submitted text trimmed of surrounding
whitespace; when the question step's `boundVariable` is present in the
snapshot, the trimmed text is coerced to the variable's declared type
(number parse failure yielding 0) and stored, and the snapshot is merged
back to the shared store; then the question's `defaultNext` is resolved —
here stated for an absent `defaultNext`, so the run finishes. The last
conjuncts replay the spec scenario: after `start()` the run awaits text, and
submitting "Ada" ends the run with transcript `..., user "Ada", bot
"Bye Ada"` and `name = "Ada"` merged back. -/
theorem handleSendMessage_answer_spec (blocks : List Block) (st : ChatState)
    (fuel : Nat) (q : Block) (w : String) (v : Variable) (newVal : Value)
    (hwait : st.isWaitingForInput = true)
    (htrim : jsTrim st.userInput ≠ "")
    (hcur : st.currentBlockId.bind (findBlock blocks) = some q)
    (hq : q.type = BlockType.openQuestion)
    (hname : q.variableName = some w) (hwne : w ≠ "")
    (hv : lookupVar st.sessionVariables w = some v)
    (hnext : q.nextBlockId = none)
    (hval : newVal = (if v.vtype = VType.tnumber then Value.vnum (numOrZero (jsNumber (jsTrim st.userInput))) else Value.vstr (jsTrim st.userInput))) :
    handleSendMessage blocks st fuel
      = endChat
          { st with
              messages := st.messages ++ [⟨MsgType.user, jsTrim st.userInput⟩],
              sessionVariables := setVarValue st.sessionVariables w newVal,
              parentVariables := st.parentVariables.map (fun kv => match lookupVar (setVarValue st.sessionVariables w newVal) kv.1 with | some v2 => (kv.1, v2) | none => kv),
              userInput := "",
              isWaitingForInput := false }
    ∧ (startChat scnBlocks scnVars 3).isWaitingForInput = true
    ∧ (startChat scnBlocks scnVars 3).messages
        = [⟨.bot, "Hi \x7b\x7bname\x7d\x7d"⟩, ⟨.bot, "Name?"⟩]
    ∧ (handleSendMessage scnBlocks
         { startChat scnBlocks scnVars 3 with userInput := "Ada" } 3).messages
        = [⟨.bot, "Hi \x7b\x7bname\x7d\x7d"⟩, ⟨.bot, "Name?"⟩, ⟨.user, "Ada"⟩,
           ⟨.bot, "Bye Ada"⟩]
    ∧ (handleSendMessage scnBlocks
         { startChat scnBlocks scnVars 3 with userInput := "Ada" } 3).isRunning = false
    ∧ lookupVar (handleSendMessage scnBlocks
         { startChat scnBlocks scnVars 3 with userInput := "Ada" } 3).parentVariables
        "name" = some ⟨"name", .tstring, .vstr "Ada"⟩ := by
  refine ⟨?_, by decide, by decide, by decide, by decide, by decide⟩
  unfold handleSendMessage
  have hg : ¬(jsTrim st.userInput = "" ∨ st.isWaitingForInput = false) := by
    simp [htrim, hwait]
  rw [if_neg hg]
  simp only [hcur, hq, hname, hnext, optTruthy, hwne, Option.getD_some, hv, hval]
  simp [addUserMessage, syncVariablesToParent, endChat, hwne, hv]

/-- Witness for C5's amended theorem: answering "42" at a number-bound open
question with no successor appends the user entry "42", stores the coerced
number 42 and finishes the run. -/
theorem handleSendMessage_answer_spec_witness :
    (handleSendMessage [answerDemoBlock] answerDemoState 1).messages
      = [⟨MsgType.user, "42"⟩]
    ∧ lookupVar (handleSendMessage [answerDemoBlock] answerDemoState 1).sessionVariables
        "ans" = some ⟨"ans", .tnumber, .vnum 42⟩
    ∧ (handleSendMessage [answerDemoBlock] answerDemoState 1).isRunning = false := by
  have h := (handleSendMessage_answer_spec [answerDemoBlock] answerDemoState 1
    answerDemoBlock "ans" ⟨"ans", .tnumber, .vnull⟩
    (Value.vnum (numOrZero (jsNumber (jsTrim answerDemoState.userInput))))
    rfl (by decide) rfl rfl rfl (by decide) rfl rfl (by decide)).1
  rw [h]
  decide
